import Mathlib

/-!
Verification development for the BlanketClusterer repository.

The definitions below are a shallow embedding of the Python source:

* `src/algorithms/generic_clustering.py` — the hierarchy driver (`run`),
  naming (`count_sequences`, `longest_subsequence`, `name_cluster`),
  colorization (`extract_coverages`, `colorize_code`, `colorize_cluster`)
  and the streaming JSON emitter (`print_cluster`, `print_cluster_end`).
* `src/algorithms/kmeans_clustering.py`, `dbscan_clustering.py`,
  `birch_clustering.py`, `src/cluster/agglomer_clustering.py` — the four
  `clusterize_cluster` strategies.
* `src/blanket_clusterer.py` — `validate_constructor`.

Python floats that arise here (`color_constant = 360 / len(nums_count)`,
the 60% threshold `60 * n / 100`, `math.ceil(len / items)`) are modelled
with exact rational / natural arithmetic; for the magnitudes this program
handles the comparisons involved agree with IEEE evaluation.  External
library calls (scikit-learn / nltk clustering backends, RAKE keyword
extraction, the embedding pickle) are modelled as opaque parameters.
-/

namespace BlanketClusterer

/-- Python `<=` on strings compares character code points left to right:
equal heads recurse, otherwise the first differing character decides;
a proper prefix is smaller. -/
def pyLeChars : List Char → List Char → Bool
  | [], _ => true
  | _ :: _, [] => false
  | a :: as, b :: bs => if a = b then pyLeChars as bs else decide (a < b)

/-- Python `left <= code` on strings. -/
def pyLe (a b : String) : Bool :=
  pyLeChars a.data b.data

/-- Python `s.split(sep)` for a one-character separator, on character
lists: splits at every occurrence of `sep`, keeping empty pieces. -/
def splitOnChar (sep : Char) : List Char → List (List Char)
  | [] => [[]]
  | c :: cs =>
    match splitOnChar sep cs with
    | [] => [[]]
    | ys :: yss => if c = sep then [] :: ys :: yss else (c :: ys) :: yss

/-- The bracket test shared by `count_sequences`, `colorize_code` and
`colorize_cluster`: `borders = key.split("-")`, then
`borders[0] <= code <= borders[1]` by Python string comparison.
A key with no `"-"` makes the Python code raise `IndexError`; such keys
are modelled as matching nothing (no claim involves them). -/
def matchesKey (key code : String) : Bool :=
  match splitOnChar ('-') key.data with
  | left :: right :: _ => pyLeChars left code.data && pyLeChars code.data right
  | _ => false

/-- pyLeChars is exactly the reflexive closure of the mathematical
lexicographic order on character sequences (ordered by code point). -/
theorem pyLeChars_iff_lex (a b : List Char) :
    pyLeChars a b = true ↔ a = b ∨ List.Lex (· < ·) a b := by
  induction a generalizing b with
  | nil =>
    cases b with
    | nil => simp [pyLeChars]
    | cons y ys => simp [pyLeChars]; exact List.Lex.nil
  | cons x xs ih =>
    cases b with
    | nil =>
      simp only [pyLeChars]
      constructor
      · intro h; exact absurd h (by simp)
      · rintro (h | h)
        · exact absurd h (by simp)
        · cases h
    | cons y ys =>
      by_cases hxy : x = y
      · subst hxy
        simp only [pyLeChars, eq_self_iff_true, if_true]
        rw [ih ys]
        constructor
        · rintro (h | h)
          · exact Or.inl (by rw [h])
          · exact Or.inr (List.Lex.cons h)
        · rintro (h | h)
          · exact Or.inl (by injection h)
          · cases h with
            | cons h => exact Or.inr h
            | rel h => exact absurd h (lt_irrefl x)
      · simp only [pyLeChars, if_neg hxy]
        constructor
        · intro h
          exact Or.inr (List.Lex.rel (by exact of_decide_eq_true h))
        · rintro (h | h)
          · exact absurd (by injection h) hxy
          · cases h with
            | cons h => exact absurd rfl hxy
            | rel h => exact decide_eq_true h

/-- C8: for every Range Key "LEFT-RIGHT" and every Code, membership in the
bracket is decided purely by lexicographic string comparison
LEFT <= Code <= RIGHT (never numeric comparison); in particular Range Key
"J00-J99" accepts Code "J50" and rejects "K01". -/
theorem c8_bracket_membership_is_lexicographic :
    (∀ key code left right rest,
      splitOnChar ('-') key.data = left :: right :: rest →
      (matchesKey key code = true ↔
        ((left = code.data ∨ List.Lex (· < ·) left code.data) ∧
         (code.data = right ∨ List.Lex (· < ·) code.data right)))) ∧
    matchesKey ("J00-J99") ("J50") = true ∧
    matchesKey ("J00-J99") ("K01") = false := by
  refine ⟨?_, by decide, by decide⟩
  intro key code left right rest h
  simp only [matchesKey, h, Bool.and_eq_true, pyLeChars_iff_lex]

/-- Witness for C8 at the spec's own example bracket. -/
theorem c8_bracket_membership_is_lexicographic_witness :
    matchesKey ("J00-J99") ("J50") = true ↔
      ((("J00").data = ("J50").data ∨ List.Lex (· < ·) ("J00").data ("J50").data) ∧
       (("J50").data = ("J99").data ∨ List.Lex (· < ·) ("J50").data ("J99").data)) :=
  c8_bracket_membership_is_lexicographic.1 ("J00-J99") ("J50")
    ("J00").data ("J99").data [] (by decide)

/-- The nums_count table right after extract_nums_count: the group CSV's
Range Keys in file order, every counter 0. -/
def initCounts (numsKeys : List String) : List (String × Nat) :=
  numsKeys.map (fun k => (k, 0))

/-- One step of the counting loop in count_sequences / colorize_cluster:
the first Range Key (in table order) whose borders bracket the code is
incremented, then the inner loop breaks. -/
def bumpFirst (code : String) : List (String × Nat) → List (String × Nat)
  | [] => []
  | (k, c) :: rest =>
    if matchesKey k code then (k, c + 1) :: rest
    else (k, c) :: bumpFirst code rest

/-- The full counting pass: every code in the cluster bumps its first
bracketing Range Key. -/
def countAll (numsKeys : List String) (arr : List String) : List (String × Nat) :=
  arr.foldl (fun acc code => bumpFirst code acc) (initCounts numsKeys)

/-- Stable insertion into a count-descending list: the inserted (earlier)
pair goes before every pair of equal count, mirroring the stability of
Python sorted(..., key=get, reverse=True). -/
def insDesc (x : String × Nat) : List (String × Nat) → List (String × Nat)
  | [] => [x]
  | y :: ys => if x.2 < y.2 then y :: insDesc x ys else x :: y :: ys

/-- Stable descending sort by count, as produced by
sorted(nums_count, key=nums_count.get, reverse=True). -/
def sortDesc : List (String × Nat) → List (String × Nat)
  | [] => []
  | x :: xs => insDesc x (sortDesc xs)

/-- Python num_keys < (60 * len(arr)) / 100: an int compared against the
rational 60n/100, stated here as the equivalent integer comparison (the
lemma belowThreshold_eq_rat proves it equal to the exact rational
comparison of the source expression). -/
def belowThreshold (numKeys n : Nat) : Bool :=
  decide (100 * numKeys < 60 * n)

/-- The integer form of the threshold test coincides with the source's
comparison num_keys < 60 * n / 100 over exact rationals. -/
theorem belowThreshold_eq_rat (numKeys n : Nat) :
    belowThreshold numKeys n = decide ((numKeys : ℚ) < 60 * n / 100) := by
  rw [Bool.eq_iff_iff, belowThreshold, decide_eq_true_eq, decide_eq_true_eq,
    lt_div_iff₀ (by norm_num : (0 : ℚ) < 100)]
  constructor
  · intro h
    have : ((100 * numKeys : ℕ) : ℚ) < ((60 * n : ℕ) : ℚ) := by exact_mod_cast h
    push_cast at this
    linarith
  · intro h
    have : ((100 * numKeys : ℕ) : ℚ) < ((60 * n : ℕ) : ℚ) := by push_cast; linarith
    exact_mod_cast this

/-- Selection loop of count_sequences: walk the sorted counts, appending a
key while the cumulative selected count is below 60% of the node size and
fewer than 3 keys are selected; the loop never re-enters the branch once
either bound fails. -/
def selectGo (n : Nat) : List (String × Nat) → Nat → Nat → List String
  | [], _, _ => []
  | (k, c) :: rest, num, len =>
    if belowThreshold num n && decide (len < 3) then
      k :: selectGo n rest (num + c) (len + 1)
    else selectGo n rest num len

/-- The Range Keys selected by count_sequences, in selection order. -/
def selectKeys (sortedCounts : List (String × Nat)) (n : Nat) : List String :=
  selectGo n sortedCounts 0 0

/-- Python description.split(" "): note "".split(" ") is [""] — an empty
description still contributes one empty word. -/
def descWords (d : String) : List (List Char) :=
  splitOnChar (' ') d.data

/-- Word-list assembly of count_sequences: for each selected key the words
of self.Y[key] (the names table!), with "/" between consecutive keys;
`none` models the KeyError raised when a key is absent from Y. -/
def assembleWords (Y : String → Option String) : List String → Option (List (List Char))
  | [] => some []
  | [k] => (Y k).map descWords
  | k :: r :: rest =>
    match Y k, assembleWords Y (r :: rest) with
    | some d, some ws => some (descWords d ++ ['/'] :: ws)
    | _, _ => none

/-- Characters removed by Python str.strip(). -/
def isPySpace (c : Char) : Bool :=
  c = ' ' || c = '\t' || c = '\n' || c = '\r' || c = '\x0b' || c = '\x0c'

/-- Python str.strip(): whitespace removed from both ends. -/
def trimChars (l : List Char) : List Char :=
  ((l.dropWhile isPySpace).reverse.dropWhile isPySpace).reverse

/-- Final name assembly of count_sequences: each word followed by a blank,
concatenated, then stripped. -/
def finalJoin (ws : List (List Char)) : String :=
  String.mk (trimChars ((ws.map (fun w => w ++ [' '])).flatten))

/-- assembleWords followed by finalJoin. -/
def assembleJoin (Y : String → Option String) (keys : List String) : Option String :=
  (assembleWords Y keys).map finalJoin

/-- count_sequences from generic_clustering.py: returns "" when no group
table is configured; otherwise counts bracket hits, stable-sorts the
counters descending, greedily selects up to 3 keys below the 60%
threshold, and joins their descriptions looked up in self.Y (the names
table — self.Z, filled by extract_group_names, is never read).  `none`
models the KeyError when a selected Range Key is missing from Y. -/
def count_sequences (hasGroups : Bool) (numsKeys : List String)
    (Y : String → Option String) (arr : List String) : Option String :=
  if hasGroups then
    assembleJoin Y (selectKeys (sortDesc (countAll numsKeys arr)) arr.length)
  else some ""

/-- A code bracketed by no Range Key leaves the counter table unchanged. -/
theorem bumpFirst_of_nomatch (code : String) (l : List (String × Nat))
    (h : ∀ p ∈ l, matchesKey p.1 code = false) :
    bumpFirst code l = l := by
  induction l with
  | nil => rfl
  | cons p rest ih =>
    obtain ⟨k, c⟩ := p
    have hk : matchesKey k code = false := h (k, c) (by simp)
    simp only [bumpFirst, hk, Bool.false_eq_true, if_false]
    rw [ih (fun q hq => h q (by simp [hq]))]

/-- When no member code is bracketed by any Range Key, counting leaves
every counter at 0. -/
theorem countAll_of_nomatch (numsKeys : List String) (arr : List String)
    (h : ∀ code ∈ arr, ∀ k ∈ numsKeys, matchesKey k code = false) :
    countAll numsKeys arr = initCounts numsKeys := by
  have hstep : ∀ code ∈ arr, bumpFirst code (initCounts numsKeys) = initCounts numsKeys := by
    intro code hcode
    refine bumpFirst_of_nomatch code _ (fun p hp => ?_)
    have : p.1 ∈ numsKeys := by
      simp only [initCounts, List.mem_map] at hp
      obtain ⟨k, hk, rfl⟩ := hp
      exact hk
    exact h code hcode p.1 this
  unfold countAll
  induction arr with
  | nil => rfl
  | cons code rest ih =>
    rw [List.foldl_cons, hstep code (by simp)]
    exact ih (fun c hc k hk => h c (by simp [hc]) k hk) (fun c hc => hstep c (by simp [hc]))

/-- A list whose counts are all equal is already stably sorted. -/
theorem sortDesc_of_const_counts (l : List (String × Nat)) (n : Nat)
    (h : ∀ p ∈ l, p.2 = n) : sortDesc l = l := by
  induction l with
  | nil => rfl
  | cons x xs ih =>
    rw [sortDesc, ih (fun p hp => h p (by simp [hp]))]
    cases xs with
    | nil => rfl
    | cons y ys =>
      have hx : x.2 = n := h x (by simp)
      have hy : y.2 = n := h y (by simp)
      simp only [insDesc, hx, hy, lt_irrefl, if_false]

/-- With all counters at 0 and a nonempty node, the selection loop takes
the first three keys unconditionally: the 60% threshold can never be
reached, and the loop does not check that it was. -/
theorem selectGo_initCounts (n : Nat) (hn : 0 < n) (numsKeys : List String) :
    ∀ len, selectGo n (initCounts numsKeys) 0 len = numsKeys.take (3 - len) := by
  induction numsKeys with
  | nil => intro len; simp [initCounts, selectGo]
  | cons k ks ih =>
    intro len
    have hb : belowThreshold 0 n = true := by
      simp only [belowThreshold, decide_eq_true_eq]
      omega
    by_cases hlen : len < 3
    · have h3 : 3 - len = (3 - (len + 1)) + 1 := by omega
      have hstep : selectGo n (initCounts (k :: ks)) 0 len
          = k :: selectGo n (initCounts ks) 0 (len + 1) := by
        simp [initCounts, selectGo, hb, hlen]
      rw [hstep, ih (len + 1), h3, List.take_succ_cons]
    · have h3 : 3 - len = 0 := by omega
      have hstep : selectGo n (initCounts (k :: ks)) 0 len
          = selectGo n (initCounts ks) 0 len := by
        simp [initCounts, selectGo, hb, hlen]
      rw [hstep, ih len, h3]
      simp

/-- C5 counterexample: the node ["Z", "Z"] is bracketed by no Range Key at
all, so its group-range coverage cannot reach the 60% threshold under any
selection, yet count_sequences returns "Alpha / Gamma", not "". -/
theorem c5_unreachable_threshold_still_named :
    (∀ code ∈ (["Z", "Z"] : List String), ∀ k ∈ (["A-B", "C-D"] : List String),
        matchesKey k code = false) ∧
    count_sequences true (["A-B", "C-D"])
      (fun k => if k = "A-B" then some ("Alpha")
                else if k = "C-D" then some ("Gamma") else none)
      (["Z", "Z"]) = some ("Alpha / Gamma") ∧
    ("Alpha / Gamma" : String) ≠ "" := by
  refine ⟨by decide, by decide, by decide⟩

/-- C5 amended: count_sequences never verifies that the 60% threshold was
reached.  For a nonempty node none of whose Codes falls in any Range Key,
it still selects the first three Range Keys in table order and returns
their joined descriptions; the keyword fallback in run applies only when
that joined name is the empty string. -/
theorem c5_amended_no_threshold_check (numsKeys : List String)
    (Y : String → Option String) (arr : List String) (hne : arr ≠ [])
    (hnomatch : ∀ code ∈ arr, ∀ k ∈ numsKeys, matchesKey k code = false) :
    count_sequences true numsKeys Y arr = assembleJoin Y (numsKeys.take 3) := by
  have hn : 0 < arr.length := List.length_pos.mpr hne
  rw [count_sequences, if_pos rfl, countAll_of_nomatch numsKeys arr hnomatch,
    sortDesc_of_const_counts (initCounts numsKeys) 0 ?_, selectKeys,
    selectGo_initCounts arr.length hn numsKeys 0]
  intro p hp
  simp only [initCounts, List.mem_map] at hp
  obtain ⟨k, _, rfl⟩ := hp
  rfl

/-- Witness for the amended C5 at a concrete unmatched node. -/
theorem c5_amended_no_threshold_check_witness :
    count_sequences true (["A-B", "C-D"])
      (fun k => if k = "A-B" then some ("Alpha")
                else if k = "C-D" then some ("Gamma") else none)
      (["Z", "Z"]) =
    assembleJoin
      (fun k => if k = "A-B" then some ("Alpha")
                else if k = "C-D" then some ("Gamma") else none)
      ((["A-B", "C-D"] : List String).take 3) :=
  c5_amended_no_threshold_check (["A-B", "C-D"]) _ (["Z", "Z"])
    (by decide) (by decide)

/-- C6: the source joins the selected keys' descriptions with " / ", but it
reads the descriptions from self.Y (the names table) — self.Z, the table
extract_group_names loads from the group-range CSV, is never read.  At a
node whose selected Range Keys carry descriptions only in the group-range
table, the code raises KeyError (modelled as none); performing the very
same lookup in the group-range table instead yields the label the spec
describes, joined with " / ". -/
theorem c6_group_descriptions_read_from_names_table :
    count_sequences true (["A00-A09", "B00-B09"])
      (fun k => if k = "A01" then some ("Alpha one")
                else if k = "B01" then some ("Beta one") else none)
      (["A01", "B01"]) = none ∧
    count_sequences true (["A00-A09", "B00-B09"])
      (fun k => if k = "A00-A09" then some ("Alpha")
                else if k = "B00-B09" then some ("Beta") else none)
      (["A01", "B01"]) = some ("Alpha / Beta") := by
  refine ⟨by decide, by decide⟩

/-- The request one clusterize_cluster call makes of its backend library:
return the input unpartitioned, call the backend asking for k clusters, or
call a backend that takes no cluster count at all. -/
inductive BackendCall where
  | passThrough
  | withCount (k : Nat)
  | noCount
deriving DecidableEq

/-- Python math.ceil(len(cluster) / items) on naturals (exact for the
sizes this program handles). -/
def pyCeilDiv (a b : Nat) : Nat :=
  (a + b - 1) / b

/-- KMeansClustering.clusterize_cluster: pass through at or below
items_in_cluster, KMeansClusterer(n_clusters) above items_in_cluster²,
otherwise KMeansClusterer(ceil(size / items_in_cluster)). -/
def kmeansCall (items nClusters size : Nat) : BackendCall :=
  if size ≤ items then .passThrough
  else if size > items * items then .withCount nClusters
  else .withCount (pyCeilDiv size items)

/-- AgglomerClustering.clusterize_cluster: same branch structure as
k-means, with AgglomerativeClustering(n_clusters=...). -/
def agglomerCall (items nClusters size : Nat) : BackendCall :=
  if size ≤ items then .passThrough
  else if size > items * items then .withCount nClusters
  else .withCount (pyCeilDiv size items)

/-- BirchClustering.clusterize_cluster: same branch structure as k-means,
with Birch(n_clusters=...). -/
def birchCall (items nClusters size : Nat) : BackendCall :=
  if size ≤ items then .passThrough
  else if size > items * items then .withCount nClusters
  else .withCount (pyCeilDiv size items)

/-- DBSCANClustering.clusterize_cluster: the same base case, but both
remaining branches construct the identical DBSCAN(eps=0.1,
metric="cosine") — no cluster count is ever requested. -/
def dbscanCall (items size : Nat) : BackendCall :=
  if size ≤ items then .passThrough
  else if size > items * items then .noCount
  else .noCount

/-- Modelled from the spec (§4.3): the common policy the spec claims all
four strategies share — pass through at or below items_in_cluster,
n_clusters above items_in_cluster², otherwise ceil(size / items). -/
def specCommonPolicy (items nClusters size : Nat) : BackendCall :=
  if size ≤ items then .passThrough
  else if size > items * items then .withCount nClusters
  else .withCount (pyCeilDiv size items)

/-- C7 counterexample: with items_in_cluster = 6, n_clusters = 10 and a
group of 7 vectors, the common policy requests ceil(7/6) = 2 clusters, but
DBSCAN requests no cluster count at all. -/
theorem c7_dbscan_departs_from_common_policy :
    dbscanCall 6 7 = BackendCall.noCount ∧
    specCommonPolicy 6 10 7 = BackendCall.withCount 2 ∧
    BackendCall.noCount ≠ BackendCall.withCount 2 := by
  refine ⟨by decide, by decide, by decide⟩

/-- C7 amended: k-means, agglomerative and birch follow the spec's common
policy exactly; DBSCAN shares only the pass-through base case and never
requests a cluster count (its two remaining branches are identical). -/
theorem c7_three_strategies_follow_policy_dbscan_base_case_only :
    ∀ items nClusters size : Nat,
      kmeansCall items nClusters size = specCommonPolicy items nClusters size ∧
      agglomerCall items nClusters size = specCommonPolicy items nClusters size ∧
      birchCall items nClusters size = specCommonPolicy items nClusters size ∧
      dbscanCall items size =
        (if size ≤ items then BackendCall.passThrough else BackendCall.noCount) := by
  intro items nClusters size
  refine ⟨rfl, rfl, rfl, ?_⟩
  by_cases h : size ≤ items <;> simp [dbscanCall, h]

/-- One iteration of the dict-building loop shared by all four
clusterize_cluster variants: append the vector to its label's group,
creating the group at the end of the dict on first occurrence. -/
def addToGroup {L α : Type} [DecidableEq L] :
    List (L × List α) → L → α → List (L × List α)
  | [], l, v => [(l, [v])]
  | (k, vs) :: rest, l, v =>
    if k = l then (k, vs ++ [v]) :: rest
    else (k, vs) :: addToGroup rest l v

/-- The grouping clusterize_cluster builds from the per-vector labels the
backend returned (labels[n] belongs to this_cluster[n]). -/
def groupByLabels {L α : Type} [DecidableEq L] (labels : List L) (vecs : List α) :
    List (L × List α) :=
  (labels.zip vecs).foldl (fun acc p => addToGroup acc p.1 p.2) []

/-- All members of a grouping, children concatenated in dict order. -/
def joinVals {L α : Type} (gs : List (L × List α)) : List α :=
  (gs.map Prod.snd).flatten

/-- Inserting one vector into the grouping adds exactly that vector. -/
theorem joinVals_addToGroup {L α : Type} [DecidableEq L]
    (gs : List (L × List α)) (l : L) (v : α) :
    List.Perm (joinVals (addToGroup gs l v)) (joinVals gs ++ [v]) := by
  induction gs with
  | nil => simp [addToGroup, joinVals]
  | cons p rest ih =>
    obtain ⟨k, vs⟩ := p
    by_cases hkl : k = l
    · simp only [addToGroup, hkl, if_true, eq_self_iff_true, joinVals,
        List.map_cons, List.flatten_cons, List.append_assoc]
      exact List.Perm.append_left vs List.perm_append_comm
    · simp only [addToGroup, hkl, if_false, joinVals, List.map_cons,
        List.flatten_cons, List.append_assoc]
      exact List.Perm.append_left vs ih

/-- Folding the insertion loop over any pair list appends exactly the
vectors of those pairs, as a multiset. -/
theorem joinVals_foldl {L α : Type} [DecidableEq L] (pairs : List (L × α)) :
    ∀ gs, List.Perm
      (joinVals (pairs.foldl (fun acc p => addToGroup acc p.1 p.2) gs))
      (joinVals gs ++ pairs.map Prod.snd) := by
  induction pairs with
  | nil => intro gs; simp
  | cons p rest ih =>
    intro gs
    rw [List.foldl_cons]
    refine (ih (addToGroup gs p.1 p.2)).trans ?_
    have h1 : List.Perm (joinVals (addToGroup gs p.1 p.2) ++ rest.map Prod.snd)
        ((joinVals gs ++ [p.2]) ++ rest.map Prod.snd) :=
      (joinVals_addToGroup gs p.1 p.2).append_right _
    refine h1.trans ?_
    rw [List.map_cons, List.append_assoc]
    rfl

/-- C3: each member vector is assigned to exactly one child group — the
grouping's members are a permutation of the input (none dropped, none
duplicated), so the sum of leaf-entry counts across a node's immediate
children equals the node's member count before partitioning. -/
theorem c3_grouping_preserves_members {L α : Type} [DecidableEq L]
    (labels : List L) (vecs : List α) (h : labels.length = vecs.length) :
    List.Perm (joinVals (groupByLabels labels vecs)) vecs ∧
    ((groupByLabels labels vecs).map (fun p => p.2.length)).sum = vecs.length := by
  have hperm : List.Perm (joinVals (groupByLabels labels vecs)) vecs := by
    have hfold := joinVals_foldl (labels.zip vecs) []
    rw [groupByLabels]
    have hmap : (labels.zip vecs).map Prod.snd = vecs :=
      List.map_snd_zip labels vecs (le_of_eq h.symm)
    simpa [joinVals, hmap] using hfold
  refine ⟨hperm, ?_⟩
  have hlen := hperm.length_eq
  rw [joinVals, List.length_flatten, List.map_map] at hlen
  simpa [Function.comp] using hlen

/-- Witness for C3 on a concrete three-vector, two-label grouping. -/
theorem c3_grouping_preserves_members_witness :
    List.Perm (joinVals (groupByLabels ([0, 1, 0] : List Nat) ([10, 20, 30] : List Nat)))
      ([10, 20, 30] : List Nat) ∧
    ((groupByLabels ([0, 1, 0] : List Nat) ([10, 20, 30] : List Nat)).map
      (fun p => p.2.length)).sum = ([10, 20, 30] : List Nat).length :=
  c3_grouping_preserves_members ([0, 1, 0]) ([10, 20, 30]) (by decide)

/-- color_constant = 360 / len(nums_count), over exact rationals. -/
def colorConstant (n : Nat) : ℚ :=
  360 / n

/-- The loop of extract_coverages: walking the table in order with
i = 1, 2, ..., coverages[key] = color_constant * i. -/
def ecGo (c : ℚ) : Nat → List String → List (String × ℚ)
  | _, [] => []
  | i, k :: rest => (k, c * i) :: ecGo c (i + 1) rest

/-- extract_coverages from generic_clustering.py. -/
def extract_coverages (c : ℚ) (numsKeys : List String) : List (String × ℚ) :=
  ecGo c 1 numsKeys

/-- The walk of colorize_code: the running coverage starts at
color_constant and grows by color_constant for every non-bracketing key;
the first bracketing key's running value is returned, 0 if no key
brackets the code. -/
def ccGo (c : ℚ) (code : String) : List String → ℚ → ℚ
  | [], _ => 0
  | k :: rest, acc => if matchesKey k code then acc else ccGo c code rest (acc + c)

/-- colorize_code from generic_clustering.py (the resolved code string as
input; group table configured). -/
def colorize_code (c : ℚ) (numsKeys : List String) (code : String) : ℚ :=
  ccGo c code numsKeys c

/-- Position of the first Range Key bracketing the code, 0-based. -/
def firstIdx (numsKeys : List String) (code : String) : Option Nat :=
  match numsKeys with
  | [] => none
  | k :: rest =>
    if matchesKey k code then some 0 else (firstIdx rest code).map (· + 1)

/-- colorize_cluster from generic_clustering.py: count bracket hits
exactly as count_sequences does, stable-sort descending, return the
precomputed coverage of the most frequent key; none models the IndexError
on an empty table. -/
def colorize_cluster (c : ℚ) (numsKeys : List String) (codes : List String) : Option ℚ :=
  match sortDesc (countAll numsKeys codes) with
  | [] => none
  | (k, _) :: _ => List.lookup k (extract_coverages c numsKeys)

/-- The running accumulation of colorize_code lands on acc + c·i for a
first match at position i. -/
theorem ccGo_of_firstIdx (c : ℚ) (code : String) :
    ∀ (numsKeys : List String) (acc : ℚ) (i : Nat),
      firstIdx numsKeys code = some i → ccGo c code numsKeys acc = acc + c * i := by
  intro numsKeys
  induction numsKeys with
  | nil => intro acc i h; simp [firstIdx] at h
  | cons k rest ih =>
    intro acc i h
    by_cases hm : matchesKey k code = true
    · rw [firstIdx] at h
      rw [if_pos hm] at h
      injection h with h
      subst h
      simp [ccGo, hm]
    · rw [firstIdx, if_neg hm, Option.map_eq_some'] at h
      obtain ⟨j, hj, rfl⟩ := h
      rw [ccGo, if_neg hm, ih (acc + c) j hj]
      push_cast
      ring

/-- With no bracketing key the walk returns 0. -/
theorem ccGo_of_no_match (c : ℚ) (code : String) :
    ∀ (numsKeys : List String) (acc : ℚ),
      firstIdx numsKeys code = none → ccGo c code numsKeys acc = 0 := by
  intro numsKeys
  induction numsKeys with
  | nil => intro acc _; rfl
  | cons k rest ih =>
    intro acc h
    by_cases hm : matchesKey k code = true
    · rw [firstIdx, if_pos hm] at h; cases h
    · rw [firstIdx, if_neg hm, Option.map_eq_none'] at h
      rw [ccGo, if_neg hm, ih (acc + c) h]

/-- Looking a key up in the coverage table built from offset j yields
c·(j + position). -/
theorem lookup_ecGo (c : ℚ) :
    ∀ (numsKeys : List String) (j i : Nat) (k : String), numsKeys.Nodup →
      numsKeys[i]? = some k →
      List.lookup k (ecGo c j numsKeys) = some (c * (j + i)) := by
  intro numsKeys
  induction numsKeys with
  | nil => intro j i k _ h; simp at h
  | cons k0 rest ih =>
    intro j i k hnd h
    cases i with
    | zero =>
      rw [List.getElem?_cons_zero] at h
      injection h with h
      subst h
      simp [ecGo, List.lookup]
    | succ i =>
      rw [List.getElem?_cons_succ] at h
      have hk : k ∈ rest := List.getElem?_mem h
      have hne : (k == k0) = false := by
        have : k0 ∉ rest := (List.nodup_cons.mp hnd).1
        simp only [beq_eq_false_iff_ne, ne_eq]
        intro hkk
        exact this (hkk ▸ hk)
      rw [ecGo, List.lookup, hne]
      rw [ih (j + 1) i k (List.nodup_cons.mp hnd).2 h]
      refine congrArg some ?_
      push_cast
      ring

/-- C10: the node-level and leaf-level colorization paths agree per Range
Key: a code whose first bracketing Range Key sits at 1-based position i
gets colorize_code = color_constant·i, which is exactly the precomputed
coverages entry of that key, and exactly what colorize_cluster returns
for a cluster whose most frequent Range Key is that key; and
colorize_code returns 0 when no Range Key brackets the code. -/
theorem c10_colorize_paths_agree (c : ℚ) (numsKeys : List String)
    (code : String) (codes : List String) (hnd : numsKeys.Nodup) :
    (∀ i k, firstIdx numsKeys code = some i → numsKeys[i]? = some k →
      colorize_code c numsKeys code = c * ((i : ℚ) + 1) ∧
      List.lookup k (extract_coverages c numsKeys) = some (c * ((i : ℚ) + 1)) ∧
      (∀ cnt rest, sortDesc (countAll numsKeys codes) = (k, cnt) :: rest →
        colorize_cluster c numsKeys codes = some (c * ((i : ℚ) + 1)))) ∧
    (firstIdx numsKeys code = none → colorize_code c numsKeys code = 0) := by
  constructor
  · intro i k hfi hget
    have h1 : colorize_code c numsKeys code = c * ((i : ℚ) + 1) := by
      rw [colorize_code, ccGo_of_firstIdx c code numsKeys c i hfi]
      ring
    have h2 : List.lookup k (extract_coverages c numsKeys) = some (c * ((i : ℚ) + 1)) := by
      rw [extract_coverages, lookup_ecGo c numsKeys 1 i k hnd hget]
      congr 1
      push_cast
      ring
    refine ⟨h1, h2, ?_⟩
    intro cnt rest hsort
    rw [colorize_cluster, hsort]
    exact h2
  · intro h
    exact ccGo_of_no_match c code numsKeys c h

/-- Witness for C10: two Range Keys, code "C1" first bracketed by the key
at 1-based position 2, cluster ["C1"] whose most frequent key is that
same key. -/
theorem c10_colorize_paths_agree_witness :
    colorize_code (colorConstant 2) (["A-B", "C-D"]) ("C1")
      = colorConstant 2 * ((1 : ℚ) + 1) ∧
    List.lookup ("C-D") (extract_coverages (colorConstant 2) (["A-B", "C-D"]))
      = some (colorConstant 2 * ((1 : ℚ) + 1)) ∧
    colorize_cluster (colorConstant 2) (["A-B", "C-D"]) (["C1"])
      = some (colorConstant 2 * ((1 : ℚ) + 1)) := by
  have h := (c10_colorize_paths_agree (colorConstant 2) (["A-B", "C-D"]) ("C1")
    (["C1"]) (by decide)).1 1 ("C-D") (by decide) (by decide)
  exact ⟨h.1, h.2.1, h.2.2 1 ([("A-B", 0)]) (by decide)⟩

/-- The input-file reads validate_constructor can perform. -/
inductive FileRead where
  | namesHeader
  | groupNamesHeader
deriving DecidableEq

/-- Arguments of validate_constructor; each CSV is represented by its
first row (the only row the header check inspects before `break`), none
for an empty file, which the check accepts vacuously. -/
structure VArgs where
  n_clusters : Int
  clustering_type : String
  embeddings : Option String
  names : Option String
  namesRow : Option (List String)
  group_names : Option String
  groupRow : Option (List String)
  items_in_cluster : Int
  max_depth : Int

/-- The header check of validate_constructor: the first row must contain
cells "key" and "value"; an empty file passes (the for loop never runs). -/
def headerBad (firstRow : Option (List String)) : Bool :=
  match firstRow with
  | none => false
  | some row => !(row.contains ("key") && row.contains ("value"))

/-- The items_in_cluster and max_depth checks of validate_constructor,
reached only after the CSV header reads recorded in `reads`. -/
def validateTail (reads : List FileRead) (a : VArgs) : List FileRead × Except String Unit :=
  if a.items_in_cluster ≤ 5 then
    (reads, .error ("Number of items in clusters must be greater than 5"))
  else if ¬ (0 < a.max_depth ∧ a.max_depth ≤ 6) then
    (reads, .error ("Invalid argument for max depth, choose in range 1-6"))
  else (reads, .ok ())

/-- validate_constructor from blanket_clusterer.py, returning the list of
input-file reads performed (in order) alongside the outcome.  Validation
never touches the output path; the output file is first opened in run. -/
def validate_constructor (a : VArgs) : List FileRead × Except String Unit :=
  if a.n_clusters ≤ 0 then ([], .error ("Invalid number of clusters"))
  else if (["k-means", "agglomerative", "dbscan", "birch"].contains a.clustering_type) = false then
    ([], .error ("Invalid clustering type\nAllowed values: [\x27k-means\x27, \x27agglomerative\x27, \x27dbscan\x27, \x27birch\x27]"))
  else if a.embeddings.isNone then ([], .error ("No embeddings specified"))
  else if a.names.isNone then ([], .error ("No names .csv file specified"))
  else if headerBad a.namesRow then
    ([.namesHeader],
     .error ("Names are not in specified format\nFile must start with the following line:\nkey,value\nand must be a .csv file"))
  else if a.group_names.isSome && headerBad a.groupRow then
    ([.namesHeader, .groupNamesHeader],
     .error ("Group names are not in specified format\nFile must start with the following line:\nkey,value\nand must be a .csv file"))
  else
    validateTail
      (if a.group_names.isSome then [.namesHeader, .groupNamesHeader] else [.namesHeader]) a

/-- C9 counterexample: with every earlier rule satisfied and
items_in_cluster = 5 (a violation), validate_constructor raises the
specific error — but only after reading the names CSV header, so the
error is not raised before any file I/O begins as the claim states. -/
theorem c9_items_check_runs_after_file_read :
    validate_constructor
      (⟨10, "k-means", some ("emb.bin"), some ("names.csv"),
        some (["key", "value"]), none, none, 5, 3⟩ : VArgs) =
      ([FileRead.namesHeader],
       Except.error ("Number of items in clusters must be greater than 5")) ∧
    ([FileRead.namesHeader] : List FileRead) ≠ [] := by
  refine ⟨rfl, by decide⟩

/-- C9 amended: every one of the four violations yields its own
descriptive error and validation fails, so no clustering work starts and
no output is produced; the n_clusters and strategy checks do precede all
file I/O, but items_in_cluster and max_depth are checked only after the
names (and optional group-names) CSV headers have been read. -/
theorem c9_each_violation_specific_error (a : VArgs) :
    (a.n_clusters ≤ 0 →
      validate_constructor a = ([], Except.error ("Invalid number of clusters"))) ∧
    (0 < a.n_clusters →
      (["k-means", "agglomerative", "dbscan", "birch"].contains a.clustering_type) = false →
      validate_constructor a =
        ([], Except.error ("Invalid clustering type\nAllowed values: [\x27k-means\x27, \x27agglomerative\x27, \x27dbscan\x27, \x27birch\x27]"))) ∧
    (0 < a.n_clusters →
      (["k-means", "agglomerative", "dbscan", "birch"].contains a.clustering_type) = true →
      a.embeddings.isNone = false → a.names.isNone = false →
      headerBad a.namesRow = false →
      (a.group_names.isSome && headerBad a.groupRow) = false →
      a.items_in_cluster ≤ 5 →
      validate_constructor a =
        ((if a.group_names.isSome then [FileRead.namesHeader, FileRead.groupNamesHeader]
          else [FileRead.namesHeader]),
         Except.error ("Number of items in clusters must be greater than 5"))) ∧
    (0 < a.n_clusters →
      (["k-means", "agglomerative", "dbscan", "birch"].contains a.clustering_type) = true →
      a.embeddings.isNone = false → a.names.isNone = false →
      headerBad a.namesRow = false →
      (a.group_names.isSome && headerBad a.groupRow) = false →
      5 < a.items_in_cluster → ¬ (0 < a.max_depth ∧ a.max_depth ≤ 6) →
      validate_constructor a =
        ((if a.group_names.isSome then [FileRead.namesHeader, FileRead.groupNamesHeader]
          else [FileRead.namesHeader]),
         Except.error ("Invalid argument for max depth, choose in range 1-6"))) := by
  refine ⟨?_, ?_, ?_, ?_⟩
  · intro h
    rw [validate_constructor, if_pos h]
  · intro h1 h2
    rw [validate_constructor, if_neg (by omega), if_pos h2]
  · intro h1 h2 h3 h4 h5 h6 h7
    rw [validate_constructor, if_neg (by omega), if_neg (by rw [h2]; decide),
      if_neg (by simp [h3]), if_neg (by simp [h4]), if_neg (by simp [h5]),
      if_neg (by simp [h6]), validateTail, if_pos h7]
  · intro h1 h2 h3 h4 h5 h6 h7 h8
    rw [validate_constructor, if_neg (by omega), if_neg (by rw [h2]; decide),
      if_neg (by simp [h3]), if_neg (by simp [h4]), if_neg (by simp [h5]),
      if_neg (by simp [h6]), validateTail, if_neg (by omega), if_pos h8]

/-- Witness for the amended C9 at the items_in_cluster violation. -/
theorem c9_each_violation_specific_error_witness :
    validate_constructor
      (⟨10, "k-means", some ("emb.bin"), some ("names.csv"),
        some (["key", "value"]), some ("groups.csv"),
        some (["key", "value"]), 4, 3⟩ : VArgs) =
      ((if (some ("groups.csv") : Option String).isSome then
          [FileRead.namesHeader, FileRead.groupNamesHeader]
        else [FileRead.namesHeader]),
       Except.error ("Number of items in clusters must be greater than 5")) :=
  (c9_each_violation_specific_error
    (⟨10, "k-means", some ("emb.bin"), some ("names.csv"),
      some (["key", "value"]), some ("groups.csv"),
      some (["key", "value"]), 4, 3⟩ : VArgs)).2.2.1
    (by decide) (by decide) (by decide) (by decide) (by decide) (by decide) (by decide)

/-- The ingredients run consumes, per clustering object: the partitioner
(clusterize_cluster, groups in dict iteration order), the two naming
passes (longest_subsequence and name_cluster over a cluster's members),
items_in_cluster and max_depth, the per-vector resolved code, the names
table Y, whether a group table is configured, and the two colorization
results rendered to strings as Python str() would. -/
structure RunParams (α : Type) where
  part : List α → List (List α)
  gName : List α → String
  kName : List α → String
  items : Nat
  maxd : Nat
  key : α → String
  Y : String → Option String
  hasGroups : Bool
  covStr : List α → String
  codeCov : α → String

/-- The label run computes for a node at depth d before deciding whether
to recurse: depths 1-3 call longest_subsequence first and fall back to
name_cluster when it returns ""; the unrolled depths 4-6 call
name_cluster alone. -/
def labelAt {α : Type} (P : RunParams α) (d : Nat) (g : List α) : String :=
  if d ≤ 3 then (if P.gName g = "" then P.kName g else P.gName g)
  else P.kName g

mutual
inductive GNode (α : Type) where
  | leafN (label : String) (ms : List α)
  | nodeN (label : String) (ms : List α) (cs : GForest α)
inductive GForest (α : Type) where
  | fnil
  | fcons (t : GNode α) (ts : GForest α)
end

/-- Build the forest of child nodes from the partitioner's groups, in
dict iteration order. -/
def mapForest {α : Type} (f : List α → GNode α) : List (List α) → GForest α
  | [] => .fnil
  | g :: gs => .fcons (f g) (mapForest f gs)

/-- The tree run emits for one group at depth d, with fuel = 6 - d
unrolled levels remaining below it: the group becomes an internal node
iff its size exceeds items_in_cluster, max_depth exceeds d, and an
unrolled level remains; otherwise it is written as a leaf holding its
members, regardless of size. -/
def buildGF {α : Type} (P : RunParams α) : Nat → Nat → List α → GNode α
  | 0 => fun d g => .leafN (labelAt P d g) g
  | fuel + 1 => fun d g =>
    if P.items < g.length ∧ d < P.maxd then
      .nodeN (labelAt P d g) g
        (mapForest (fun c => buildGF P fuel (d + 1) c) (P.part g))
    else .leafN (labelAt P d g) g

/-- The top-level forest run emits: the partitioner's groups for the full
dataset, each at depth 1 with the source's five remaining unrolled
levels. -/
def runForest {α : Type} (P : RunParams α) (X : List α) : GForest α :=
  mapForest (fun g => buildGF P 5 1 g) (P.part X)

mutual
def depthTree {α : Type} : GNode α → Nat
  | .leafN _ _ => 1
  | .nodeN _ _ cs => 1 + depthForest cs
def depthForest {α : Type} : GForest α → Nat
  | .fnil => 0
  | .fcons t ts => max (depthTree t) (depthForest ts)
end

mutual
def nodesOfTree {α : Type} : GNode α → List (String × List α)
  | .leafN l ms => [(l, ms)]
  | .nodeN l ms cs => (l, ms) :: nodesOfForest cs
def nodesOfForest {α : Type} : GForest α → List (String × List α)
  | .fnil => []
  | .fcons t ts => nodesOfTree t ++ nodesOfForest ts
end

/-- The label of a node. -/
def labelOf {α : Type} : GNode α → String
  | .leafN l _ => l
  | .nodeN l _ _ => l

/-- A forest of uniformly depth-bounded trees is depth-bounded. -/
theorem depthForest_mapForest_le {α : Type} (f : List α → GNode α) (b : Nat)
    (gs : List (List α)) (h : ∀ g ∈ gs, depthTree (f g) ≤ b) :
    depthForest (mapForest f gs) ≤ b := by
  induction gs with
  | nil => simp [mapForest, depthForest]
  | cons g gs ih =>
    simp only [mapForest, depthForest, max_le_iff]
    exact ⟨h g (by simp), ih (fun g' hg' => h g' (by simp [hg']))⟩

/-- Depth bound for one emitted node: at depth d with any fuel, the
emitted subtree nests at most maxd + 1 - d levels. -/
theorem depthTree_buildGF_le {α : Type} (P : RunParams α) :
    ∀ (fuel d : Nat) (g : List α), d ≤ P.maxd →
      depthTree (buildGF P fuel d g) ≤ P.maxd + 1 - d := by
  intro fuel
  induction fuel with
  | zero =>
    intro d g hd
    simp only [buildGF, depthTree]
    omega
  | succ fuel ih =>
    intro d g hd
    simp only [buildGF]
    by_cases hc : P.items < g.length ∧ d < P.maxd
    · rw [if_pos hc]
      simp only [depthTree]
      have hkids : depthForest
          (mapForest (fun c => buildGF P fuel (d + 1) c) (P.part g))
          ≤ P.maxd + 1 - (d + 1) :=
        depthForest_mapForest_le _ _ _ (fun c _ => ih (d + 1) c (by omega))
      omega
    · rw [if_neg hc]
      simp only [depthTree]
      omega

/-- C2: for every configured max_depth in 1..6 and every partitioner
result, the forest run emits nests at most max_depth levels; a group is
recursed into only when its size exceeds items_in_cluster and depth
budget remains, and otherwise becomes a leaf regardless of size. -/
theorem c2_emitted_depth_at_most_max_depth {α : Type} (P : RunParams α)
    (X : List α) (h1 : 1 ≤ P.maxd) (h6 : P.maxd ≤ 6) :
    depthForest (runForest P X) ≤ P.maxd ∧
    (∀ fuel d g, buildGF P (fuel + 1) d g =
      (if P.items < g.length ∧ d < P.maxd then
        GNode.nodeN (labelAt P d g) g
          (mapForest (fun c => buildGF P fuel (d + 1) c) (P.part g))
      else GNode.leafN (labelAt P d g) g)) := by
  constructor
  · refine depthForest_mapForest_le _ _ _ (fun g _ => ?_)
    have := depthTree_buildGF_le P 5 1 g h1
    omega
  · intro fuel d g
    rfl

/-- Concrete instance for the C2 witness: split off the first element at
every level, items_in_cluster = 1, max_depth = 3. -/
def c2P : RunParams Nat :=
  ⟨fun g => if 2 ≤ g.length then [g.take 1, g.drop 1] else [g],
   fun _ => "G", fun _ => "K", 1, 3, fun n => toString n, fun _ => none,
   false, fun _ => "0", fun _ => "0"⟩

/-- Witness for C2 on the concrete instance. -/
theorem c2_emitted_depth_at_most_max_depth_witness :
    depthForest (runForest c2P ([0, 1, 2, 3, 4] : List Nat)) ≤ c2P.maxd :=
  (c2_emitted_depth_at_most_max_depth c2P ([0, 1, 2, 3, 4])
    (by decide) (by decide)).1

/-- Concrete instance for C4: same splitting partitioner driven to depth
4 (max_depth = 6), group table configured, group heuristic always "G",
keyword naming always "K". -/
def c4P : RunParams Nat :=
  ⟨fun g => if 2 ≤ g.length then [g.take 1, g.drop 1] else [g],
   fun _ => "G", fun _ => "K", 1, 6, fun n => toString n, fun _ => none,
   true, fun _ => "0", fun _ => "0"⟩

/-- C4 counterexample: with a group table configured (the group heuristic
returns "G", never ""), the emitted forest contains the depth-4 node [3]
labeled "K" — keyword extraction alone, the majority-group heuristic was
never attempted at that depth. -/
theorem c4_deep_levels_skip_group_heuristic :
    ¬ (∀ p ∈ nodesOfForest (runForest c4P ([0, 1, 2, 3, 4] : List Nat)),
        p.1 = (if c4P.gName p.2 = "" then c4P.kName p.2 else c4P.gName p.2)) := by
  decide

/-- C4 amended: every emitted node's label is labelAt of its depth; at
depths 1-3 that is the majority-group heuristic with keyword fallback,
and at depths 4 and beyond it is keyword extraction alone, regardless of
the group configuration. -/
theorem c4_amended_group_heuristic_only_first_three_levels {α : Type}
    (P : RunParams α) (fuel d : Nat) (g : List α) :
    labelOf (buildGF P fuel d g) = labelAt P d g ∧
    (d ≤ 3 → labelAt P d g =
      (if P.gName g = "" then P.kName g else P.gName g)) ∧
    (4 ≤ d → labelAt P d g = P.kName g) := by
  refine ⟨?_, ?_, ?_⟩
  · cases fuel with
    | zero => rfl
    | succ fuel =>
      simp only [buildGF]
      by_cases hc : P.items < g.length ∧ d < P.maxd
      · rw [if_pos hc]; rfl
      · rw [if_neg hc]; rfl
  · intro hd
    rw [labelAt, if_pos hd]
  · intro hd
    rw [labelAt, if_neg (by omega)]

/-- Witness for the amended C4, at a depth-2 node (heuristic first) and a
depth-4 node (keyword only). -/
theorem c4_amended_group_heuristic_only_first_three_levels_witness :
    labelOf (buildGF c4P 5 2 ([1, 2] : List Nat)) = labelAt c4P 2 ([1, 2]) ∧
    labelAt c4P 2 ([1, 2] : List Nat) =
      (if c4P.gName ([1, 2]) = "" then c4P.kName ([1, 2]) else c4P.gName ([1, 2])) ∧
    labelAt c4P 4 ([3] : List Nat) = c4P.kName ([3]) := by
  have h2 := c4_amended_group_heuristic_only_first_three_levels c4P 5 2 ([1, 2])
  have h4 := c4_amended_group_heuristic_only_first_three_levels c4P 2 4 ([3])
  exact ⟨h2.1, h2.2.1 (by decide), h4.2.2 (by decide)⟩

/-- The literal header run writes when it opens a cluster node:
a line with the dotted id, a line with the label, and the opening of the
groups array. -/
def nodeHeader (id label : String) : String :=
  "\n \x7b \"id\":\"" ++ id ++ "\"," ++ "\n \"label\": \"" ++ label ++ "\"," ++
    "\n \"groups\": ["

/-- print_cluster_end, written after every cluster — including the last
sibling: "]" then, without a group table, "},\n", and with one,
",\n \"coverage\": value},". -/
def nodeClose {α : Type} (P : RunParams α) (ms : List α) : String :=
  "]\n" ++
    (if P.hasGroups then ",\n \"coverage\": " ++ P.covStr ms ++ "\x7d,"
     else "\x7d,\n")

/-- Python str.upper(), per character (the codes here are ASCII). -/
def strUpper (s : String) : String :=
  String.mk (s.data.map Char.toUpper)

/-- One leaf entry written by print_cluster: the upper-cased resolved
code, then its description from Y (plus a coverage field when a group
table is configured) or the NAME NOT FOUND sentinel. -/
def entryStr {α : Type} (P : RunParams α) (a : α) : String :=
  "\x7b \n \"id\": \"" ++ strUpper (P.key a) ++ "\"," ++
  (match P.Y (strUpper (P.key a)) with
   | some desc =>
     "\n \"label\": \"" ++ desc ++ "\"" ++
     (if P.hasGroups then ",\n \"coverage\": " ++ P.codeCov a ++ "\n\x7d"
      else "\n\x7d")
   | none => "\n \"label\": \"NAME NOT FOUND\"\n\x7d")

/-- print_cluster: all member entries in order, a "," after each entry
except one comparing equal to the cluster's last member (numpy value
equality).  The empty-cluster case (Python IndexError) is unreachable in
a run. -/
def emitEntries {α : Type} [DecidableEq α] (P : RunParams α) (ms : List α) : String :=
  match ms.getLast? with
  | none => ""
  | some last =>
    String.join (ms.map (fun a => entryStr P a ++ (if a = last then "" else ",")))

mutual
def emitTree {α : Type} [DecidableEq α] (P : RunParams α) : String → GNode α → String
  | id, .leafN label ms => nodeHeader id label ++ emitEntries P ms ++ nodeClose P ms
  | id, .nodeN label ms cs => nodeHeader id label ++ emitKids P id 0 cs ++ nodeClose P ms
def emitKids {α : Type} [DecidableEq α] (P : RunParams α) : String → Nat → GForest α → String
  | _, _, .fnil => ""
  | id, i, .fcons t ts =>
    emitTree P (id ++ "." ++ toString i) t ++ emitKids P id (i + 1) ts
end

/-- The top-level loop of run: sibling ids are the bare indices 0, 1, ... -/
def emitTop {α : Type} [DecidableEq α] (P : RunParams α) : Nat → GForest α → String
  | _, .fnil => ""
  | i, .fcons t ts => emitTree P (toString i) t ++ emitTop P (i + 1) ts

/-- The whole document a normally-completing run writes to the output
path. -/
def emitRun {α : Type} [DecidableEq α] (P : RunParams α) (X : List α) : String :=
  "\x7b \n \"groups\": [" ++ emitTop P 0 (runForest P X) ++ "]\x7d"

/-- True when the next non-blank character closes an array or object. -/
def closesNext : List Char → Bool
  | [] => false
  | c :: rest =>
    if c = ' ' || c = '\n' then closesNext rest
    else decide (c = ']') || decide (c = '\x7d')

/-- A dangling separator: some "," followed, up to blanks, by "]" or the
closing brace.  A well-formed JSON document whose string values contain
no commas (as below) never contains one. -/
def strayComma : List Char → Bool
  | [] => false
  | c :: rest => (decide (c = ',') && closesNext rest) || strayComma rest

/-- Concrete run for C1: one top-level cluster of two vectors, no group
table, both codes resolving to described names. -/
def c1P : RunParams Nat :=
  ⟨fun g => [g], fun _ => "", fun _ => "L", 10, 6,
   fun n => if n = 1 then "A1" else "A2",
   fun s => if s = "A1" then some ("Desc one")
            else if s = "A2" then some ("Desc two") else none,
   false, fun _ => "0", fun _ => "0"⟩

/-- C1 (code bug): print_cluster_end writes a comma after every cluster —
including the last sibling at each level and the last top-level cluster —
so a normally-completing run leaves a stray separator before the closing
brackets written by run: this document ends with "]\n},\n]}" and is not
well-formed JSON. -/
theorem c1_stray_separator_before_closing_brackets :
    emitRun c1P ([1, 2] : List Nat) =
      ("\x7b \n \"groups\": [\n \x7b \"id\":\"0\",\n \"label\": \"L\",\n \"groups\": " ++
       "[\x7b \n \"id\": \"A1\",\n \"label\": \"Desc one\"\n\x7d,\x7b \n \"id\": \"A2\"," ++
       "\n \"label\": \"Desc two\"\n\x7d]\n\x7d,\n]\x7d") ∧
    strayComma (emitRun c1P ([1, 2] : List Nat)).data = true := by
  refine ⟨by decide, by decide⟩

end BlanketClusterer
